import Mathlib

/- Shallow embedding of the Ikasnova educational-app directory front end.

   Data model from types.ts; the filter engine from App.tsx
   (filteredApps, clearFilters, activeFilterCount, toggleLanguage); the
   image fallback chain shared verbatim by AppCard.tsx and
   AppDetailModal.tsx (imgSrc / showPlaceholder state and handleImgError);
   the review-request effect of AppDetailModal.tsx (useEffect with
   dependency list [app, language] and the isMounted cleanup flag); the
   PDF text sanitizer cleanText of AppDetailModal.tsx; and the minAge
   renderings of the card, the detail view and the PDF export.

   JavaScript strings are modelled as Lean String values;
   String.prototype.toLowerCase is modelled by mapping Char.toLower,
   String.prototype.includes and Array.prototype.includes by substring
   containment and list membership respectively. -/

namespace Ikasnova

/-- Language type from types.ts: type Language = 'es' | 'eu'. -/
inductive Language where
  | es
  | eu
deriving DecidableEq, Repr

/-- enum UserRole from types.ts (values 'Docente', 'Alumnado', 'Ambos'). -/
inductive UserRole where
  | TEACHER
  | STUDENT
  | BOTH
deriving DecidableEq, Repr

/-- enum AppCategory from types.ts. -/
inductive AppCategory where
  | GAMIFICATION
  | CONTENT_CREATION
  | MANAGEMENT
  | ASSESSMENT
  | COLLABORATION
  | OTHER
deriving DecidableEq, Repr

/-- enum EducationStage from types.ts. -/
inductive EducationStage where
  | INFANTIL
  | PRIMARIA
  | SECUNDARIA
  | BACHILLERATO
  | FP
  | UNIVERSIDAD
deriving DecidableEq, Repr

/-- priceModel field type from types.ts: 'Gratis' | 'Freemium' | 'Pago'. -/
inductive PriceModel where
  | Gratis
  | Freemium
  | Pago
deriving DecidableEq, Repr

/-- interface LocalizedText from types.ts. -/
structure LocalizedText where
  es : String
  eu : String
deriving DecidableEq, Repr

/-- interface LocalizedList from types.ts. -/
structure LocalizedList where
  es : List String
  eu : List String
deriving DecidableEq, Repr

/-- interface EduApp from types.ts. minAge is number | null, modelled as
Option Nat (none = null). -/
structure EduApp where
  id : String
  name : String
  description : LocalizedText
  category : AppCategory
  targetAudience : UserRole
  stages : List EducationStage
  priceModel : PriceModel
  website : String
  iconUrl : String
  features : LocalizedList
  minAge : Option Nat
deriving DecidableEq, Repr

/-- Model of String.prototype.toLowerCase as used in App.tsx: the string
as a character list, each character lowercased. -/
def lowerChars (s : String) : List Char :=
  s.toList.map Char.toLower

/-- Model of hay.toLowerCase().includes(needle.toLowerCase()) from
App.tsx line 123: case-insensitive substring containment. -/
def ciIncludes (hay needle : String) : Bool :=
  decide (lowerChars needle <:+: lowerChars hay)

/-- matchesSearch from App.tsx lines 123-125: the query is looked up,
case-insensitively, in the name and in BOTH language descriptions; the
active display language is not an input. -/
def matchesSearch (searchTerm : String) (app : EduApp) : Bool :=
  ciIncludes app.name searchTerm ||
  ciIncludes app.description.es searchTerm ||
  ciIncludes app.description.eu searchTerm

/-- matchesCategory from App.tsx line 127. -/
def matchesCategory (selectedCategories : List AppCategory) (app : EduApp) : Bool :=
  selectedCategories.isEmpty || decide (app.category ∈ selectedCategories)

/-- matchesStage from App.tsx line 130: ANY intersection between the
stages of the entry and the selected stages. -/
def matchesStage (selectedStages : List EducationStage) (app : EduApp) : Bool :=
  selectedStages.isEmpty || app.stages.any (fun s => decide (s ∈ selectedStages))

/-- matchesRole from App.tsx lines 132-135: entries for BOTH match any
selected role; otherwise the exact audience must be selected. -/
def matchesRole (selectedRoles : List UserRole) (app : EduApp) : Bool :=
  selectedRoles.isEmpty ||
    selectedRoles.any (fun role =>
      if app.targetAudience = UserRole.BOTH then true
      else decide (app.targetAudience = role))

/-- matchesPrice from App.tsx line 137. -/
def matchesPrice (selectedPrices : List PriceModel) (app : EduApp) : Bool :=
  selectedPrices.isEmpty || decide (app.priceModel ∈ selectedPrices)

/-- filteredApps from App.tsx lines 121-141: Array.prototype.filter with
the conjunction of the five predicates, over the catalog in its original
order. -/
def filteredApps (catalog : List EduApp) (searchTerm : String)
    (selectedCategories : List AppCategory) (selectedStages : List EducationStage)
    (selectedRoles : List UserRole) (selectedPrices : List PriceModel) : List EduApp :=
  catalog.filter (fun app =>
    matchesSearch searchTerm app &&
    matchesCategory selectedCategories app &&
    matchesStage selectedStages app &&
    matchesRole selectedRoles app &&
    matchesPrice selectedPrices app)

/-- Spec-side predicate (section 4.1 rule 1), written from the words of
the specification for comparison with the code: case-insensitive
substring of a field. -/
def ciSubstr (needle hay : String) : Prop :=
  lowerChars needle <:+: lowerChars hay

/-- Filter Selection State from App.tsx lines 99-103. -/
structure FilterState where
  searchTerm : String
  selectedCategories : List AppCategory
  selectedStages : List EducationStage
  selectedRoles : List UserRole
  selectedPrices : List PriceModel
deriving DecidableEq, Repr

/-- clearFilters from App.tsx lines 113-119: resets the query and the
four selection sets. -/
def clearFilters (_s : FilterState) : FilterState :=
  { searchTerm := ""
    selectedCategories := []
    selectedStages := []
    selectedRoles := []
    selectedPrices := [] }

/-- activeFilterCount from App.tsx line 152: sum of the sizes of the four
selection sets, the text query not counted. -/
def activeFilterCount (s : FilterState) : Nat :=
  s.selectedCategories.length + s.selectedStages.length +
  s.selectedRoles.length + s.selectedPrices.length

/-- Run the filter engine on a whole selection state. -/
def runFilter (catalog : List EduApp) (s : FilterState) : List EduApp :=
  filteredApps catalog s.searchTerm s.selectedCategories s.selectedStages
    s.selectedRoles s.selectedPrices

/-- toggleLanguage from App.tsx lines 109-111. -/
def toggleLanguage : Language → Language
  | Language.es => Language.eu
  | Language.eu => Language.es

/- ------------------------------------------------------------------
   Image resolution chain (AppCard.tsx lines 16-38 and
   AppDetailModal.tsx lines 34-55; the two components carry the same
   code verbatim).
   ------------------------------------------------------------------ -/

/-- Models the browser URL constructor composed with .hostname as used
in handleImgError: new URL(app.website).hostname. Accepts http and https
URLs, returning the authority up to the first path, port, query or
fragment delimiter; returns none when the string does not parse (the
catch branch of the source). -/
def urlHostname (w : String) : Option String :=
  let cs := w.toList
  let rest : Option (List Char) :=
    if "https://".toList.isPrefixOf cs then some (cs.drop 8)
    else if "http://".toList.isPrefixOf cs then some (cs.drop 7)
    else none
  match rest with
  | none => none
  | some r =>
    let host := r.takeWhile (fun c => c ≠ '/' && c ≠ ':' && c ≠ '?' && c ≠ '#')
    if host.isEmpty then none else some (String.mk host)

/-- The Google favicon-service URL template from handleImgError. -/
def faviconUrl (domain : String) : String :=
  "https://www.google.com/s2/favicons?domain=" ++ domain ++ "&sz=128"

/-- The two component-local state variables of the image chain:
imgSrc and showPlaceholder. -/
structure ImgState where
  imgSrc : String
  showPlaceholder : Bool
deriving DecidableEq, Repr

/-- Initial image state: useState(app.iconUrl) and useState(false), also
restored by the reset effect on iconUrl change. -/
def initialImgState (app : EduApp) : ImgState :=
  { imgSrc := app.iconUrl, showPlaceholder := false }

/-- handleImgError: on a load failure, if the current source is still
the original iconUrl, switch to the favicon service keyed on the website
hostname (or to the placeholder when the website does not parse);
otherwise show the category placeholder. -/
def handleImgError (app : EduApp) (s : ImgState) : ImgState :=
  if s.imgSrc = app.iconUrl then
    match urlHostname app.website with
    | some domain => { s with imgSrc := faviconUrl domain }
    | none => { s with showPlaceholder := true }
  else
    { s with showPlaceholder := true }

/-- What the component renders: the img element with the current source
while showPlaceholder is false, otherwise the static category
placeholder (none = no network-backed image element at all). -/
def renderedImgSrc (s : ImgState) : Option String :=
  if s.showPlaceholder then none else some s.imgSrc

/- ------------------------------------------------------------------
   Review-request effect of AppDetailModal.tsx lines 96-126:
   useEffect whose dependency list is [app, language]; each run issues
   one generateAnalysis call and closes over an isMounted flag that its
   cleanup sets to false. React re-runs the effect (cleanup of the old
   run first) exactly when a render changes some dependency.
   ------------------------------------------------------------------ -/

/-- State of the review-request effect. depsApp and depsLang are the
dependency values of the last effect run; epoch identifies that run (the
isMounted flag of run k is still true exactly when k is the current
epoch and the modal is still open); requestsIssued counts the
generateAnalysis calls made so far. -/
structure ModalEffect where
  depsApp : EduApp
  depsLang : Language
  epoch : Nat
  requestsIssued : Nat
deriving DecidableEq, Repr

/-- Opening the modal mounts the component: the effect runs once and
issues the first request. -/
def modalOpen (app : EduApp) (lang : Language) : ModalEffect :=
  { depsApp := app, depsLang := lang, epoch := 0, requestsIssued := 1 }

/-- A re-render with props (app, lang): the effect re-runs (cleanup of
the previous run, then one more generateAnalysis call) exactly when a
dependency changed. -/
def modalRender (s : ModalEffect) (app : EduApp) (lang : Language) : ModalEffect :=
  if app = s.depsApp ∧ lang = s.depsLang then s
  else
    { depsApp := app, depsLang := lang
      epoch := s.epoch + 1, requestsIssued := s.requestsIssued + 1 }

/-- Whether the response of the request issued by effect run
requestEpoch is applied to component state: the isMounted flag of that
run is still true exactly when it is the current run. -/
def responseApplied (s : ModalEffect) (requestEpoch : Nat) : Bool :=
  decide (requestEpoch = s.epoch)

/- ------------------------------------------------------------------
   PDF text sanitizer cleanText, AppDetailModal.tsx lines 15-25.
   ------------------------------------------------------------------ -/

/-- Action of one .replace(/[c1 c2 ...]/g, r) pass on one character:
a character of the class becomes r, every other is kept. -/
def passChar (cls : List Char) (r : Char) (c : Char) : Char :=
  if c ∈ cls then r else c

/-- One .replace(/[c1 c2 ...]/g, r) pass: each pass maps one character
to one character, so it never changes the length. -/
def replaceClass (cls : List Char) (r : Char) (s : List Char) : List Char :=
  s.map (passChar cls r)

/-- The character range the final pass of cleanText keeps: printable
ASCII plus control characters 00-7F and Latin-1 Supplement A0-FF (the
stated supported range of the default jsPDF fonts; the \n and \r of the
source class are already inside 00-7F). -/
def isSupported (c : Char) : Bool :=
  c.toNat ≤ 0x7F || (0xA0 ≤ c.toNat && c.toNat ≤ 0xFF)

/-- Action of the final pass on one character: a character outside the
supported range becomes a space. -/
def keepChar (c : Char) : Char :=
  if isSupported c then c else ' '

/-- The final pass of cleanText: every character outside the supported
range becomes a space. -/
def keepSupported (s : List Char) : List Char :=
  s.map keepChar

/-- cleanText from AppDetailModal.tsx lines 15-25: the five chained
.replace passes, on the text as a character list. The null-or-empty
guard of the source returns the empty string, which coincides with the
passes applied to the empty list. -/
def cleanText (s : List Char) : List Char :=
  keepSupported
    (replaceClass ['•'] '-'
      (replaceClass ['–', '—'] '-'
        (replaceClass ['“', '”'] '"'
          (replaceClass ['‘', '’'] '\'' s))))

/-- Spec-side per-character sanitization, written from the words of the
specification amended with the bullet conversion the code also
performs: typographic quotes and dashes (and the bullet) become their
ASCII equivalents; every other unsupported character becomes a space. -/
def cleanCharSpec (c : Char) : Char :=
  if c = '‘' ∨ c = '’' then '\''
  else if c = '“' ∨ c = '”' then '"'
  else if c = '–' ∨ c = '—' ∨ c = '•' then '-'
  else if isSupported c then c
  else ' '

/- ------------------------------------------------------------------
   minAge renderings.
   ------------------------------------------------------------------ -/

/-- Detail-view age cell, AppDetailModal.tsx line 398:
app.minAge ? app.minAge + '+' : '-'. JavaScript truthiness: null and 0
both take the '-' branch. -/
def modalMinAgeText : Option Nat → String
  | none => "-"
  | some a => if a = 0 then "-" else toString a ++ "+"

/-- PDF details line, AppDetailModal.tsx line 177: same conditional
expression as the detail view. -/
def pdfMinAgeText : Option Nat → String
  | none => "-"
  | some a => if a = 0 then "-" else toString a ++ "+"

/-- Card badge guard, AppCard.tsx line 146:
app.minAge !== null && app.minAge !== undefined. Zero passes. -/
def cardShowsAgeBadge (m : Option Nat) : Bool :=
  m.isSome

/-- Card badge text, AppCard.tsx line 152: +age. -/
def cardAgeBadgeText (a : Nat) : String :=
  "+" ++ toString a

/- ------------------------------------------------------------------
   A concrete catalog entry for witnesses.
   ------------------------------------------------------------------ -/

/-- Per-character composite of the five .replace passes of cleanText,
used to reason about cleanText characterwise; definitionally equal to
running one character through the chained passes. -/
def cleanCharCode (c : Char) : Char :=
  keepChar
    (passChar ['•'] '-'
      (passChar ['–', '—'] '-'
        (passChar ['“', '”'] '"'
          (passChar ['‘', '’'] '\'' c))))

/-- A concrete, well-formed catalog entry used to instantiate the
hypotheses of the theorems below. -/
def sampleApp : EduApp :=
  { id := "app-1"
    name := "Kahoot"
    description := { es := "Plataforma de cuestionarios", eu := "Galdetegi plataforma" }
    category := AppCategory.GAMIFICATION
    targetAudience := UserRole.BOTH
    stages := [EducationStage.PRIMARIA, EducationStage.SECUNDARIA]
    priceModel := PriceModel.Freemium
    website := "https://example.org/path"
    iconUrl := "https://example.org/icon.png"
    features := { es := ["Cuestionarios"], eu := ["Galdetegiak"] }
    minAge := some 0 }

/-- The sample entry with a teacher-only audience. -/
def sampleTeacherApp : EduApp :=
  { sampleApp with targetAudience := UserRole.TEACHER }

/- ==================================================================
   Helper lemmas: each Bool predicate of the filter engine coincides
   with the corresponding set-theoretic predicate of the specification
   (section 4.1).
   ================================================================== -/

theorem matchesSearch_eq (q : String) (a : EduApp) :
    matchesSearch q a = true ↔
      (q = "" ∨ ciSubstr q a.name ∨ ciSubstr q a.description.es ∨ ciSubstr q a.description.eu) := by
  simp only [matchesSearch, ciIncludes, ciSubstr, Bool.or_eq_true, decide_eq_true_eq]
  constructor
  · intro h
    exact Or.inr (or_assoc.mp h)
  · rintro (rfl | h)
    · exact Or.inl (Or.inl List.nil_infix)
    · exact or_assoc.mpr h

theorem matchesCategory_eq (sc : List AppCategory) (a : EduApp) :
    matchesCategory sc a = true ↔ (sc = [] ∨ a.category ∈ sc) := by
  simp [matchesCategory, List.isEmpty_iff]

theorem matchesStage_eq (ss : List EducationStage) (a : EduApp) :
    matchesStage ss a = true ↔ (ss = [] ∨ ∃ s, s ∈ a.stages ∧ s ∈ ss) := by
  simp [matchesStage, List.isEmpty_iff, List.any_eq_true]

theorem matchesRole_eq (sr : List UserRole) (a : EduApp) :
    matchesRole sr a = true ↔
      (sr = [] ∨ a.targetAudience = UserRole.BOTH ∨ a.targetAudience ∈ sr) := by
  rcases eq_or_ne sr [] with rfl | hne
  · simp [matchesRole]
  · simp only [matchesRole, List.isEmpty_iff, hne, Bool.or_eq_true, decide_eq_true_eq,
      List.any_eq_true, false_or]
    constructor
    · rintro ⟨r, hr, h⟩
      by_cases hb : a.targetAudience = UserRole.BOTH
      · exact Or.inl hb
      · simp only [hb, if_false, decide_eq_true_eq] at h
        exact Or.inr (h ▸ hr)
    · rintro (hb | hmem)
      · obtain ⟨r, hr⟩ := List.exists_mem_of_ne_nil sr hne
        exact ⟨r, hr, by simp [hb]⟩
      · exact ⟨a.targetAudience, hmem, by by_cases hb : a.targetAudience = UserRole.BOTH <;> simp [hb]⟩

theorem matchesPrice_eq (sp : List PriceModel) (a : EduApp) :
    matchesPrice sp a = true ↔ (sp = [] ∨ a.priceModel ∈ sp) := by
  simp [matchesPrice, List.isEmpty_iff]

/-- Helper: with the empty query and empty selection sets every entry
passes every predicate, so the filter is the identity. -/
theorem filteredApps_all_empty (C : List EduApp) :
    filteredApps C "" [] [] [] [] = C := by
  rw [filteredApps, List.filter_eq_self]
  intro a _
  have hs : matchesSearch "" a = true := by
    simp only [matchesSearch, ciIncludes, Bool.or_eq_true, decide_eq_true_eq]
    exact Or.inl (Or.inl List.nil_infix)
  simp [hs, matchesCategory, matchesStage, matchesRole, matchesPrice]

/-- Helper: the per-character composite of the five passes agrees with
the per-character specification mapping. -/
theorem cleanCharCode_eq_spec (c : Char) : cleanCharCode c = cleanCharSpec c := by
  by_cases h1 : c = '‘'
  · subst h1; decide
  by_cases h2 : c = '’'
  · subst h2; decide
  by_cases h3 : c = '“'
  · subst h3; decide
  by_cases h4 : c = '”'
  · subst h4; decide
  by_cases h5 : c = '–'
  · subst h5; decide
  by_cases h6 : c = '—'
  · subst h6; decide
  by_cases h7 : c = '•'
  · subst h7; decide
  simp [cleanCharCode, cleanCharSpec, passChar, keepChar, h1, h2, h3, h4, h5, h6, h7]

/-- Helper: five chained maps compose into one map. -/
theorem map_chain (f g h i j : Char → Char) (s : List Char) :
    ((((s.map f).map g).map h).map i).map j = s.map (fun c => j (i (h (g (f c))))) := by
  induction s with
  | nil => rfl
  | cons c t ih => simp only [List.map_cons, ih]

/-- Helper: cleanText is the characterwise map of the composite pass. -/
theorem cleanText_eq_map (s : List Char) : cleanText s = s.map cleanCharCode := by
  rw [cleanText, keepSupported, replaceClass, replaceClass, replaceClass, replaceClass]
  exact map_chain _ _ _ _ _ s

/- ==================================================================
   Claims.
   ================================================================== -/

/-- C1: filteredApps returns exactly the entries of the catalog that
satisfy all five predicates of the specification (text, category,
stage, role, price, combined by logical AND), and the result is a
sublist of the catalog, so its relative order is the catalog's original
order restricted to that subset. The function is pure and deterministic
by construction: it is a function of its inputs alone. -/
theorem filteredApps_spec (C : List EduApp) (q : String)
    (sc : List AppCategory) (ss : List EducationStage)
    (sr : List UserRole) (sp : List PriceModel) :
    List.Sublist (filteredApps C q sc ss sr sp) C ∧
    ∀ a : EduApp, a ∈ filteredApps C q sc ss sr sp ↔
      a ∈ C ∧
      (q = "" ∨ ciSubstr q a.name ∨ ciSubstr q a.description.es ∨ ciSubstr q a.description.eu) ∧
      (sc = [] ∨ a.category ∈ sc) ∧
      (ss = [] ∨ ∃ s, s ∈ a.stages ∧ s ∈ ss) ∧
      (sr = [] ∨ a.targetAudience = UserRole.BOTH ∨ a.targetAudience ∈ sr) ∧
      (sp = [] ∨ a.priceModel ∈ sp) := by
  constructor
  · rw [filteredApps]
    exact List.filter_sublist C
  · intro a
    rw [filteredApps, List.mem_filter]
    simp only [Bool.and_eq_true]
    rw [matchesSearch_eq, matchesCategory_eq, matchesStage_eq, matchesRole_eq, matchesPrice_eq]
    simp only [and_assoc]

/-- C2: with a non-empty selected-role set, an entry whose audience is
BOTH passes the role predicate regardless of the set contents, and an
entry with a single exact audience passes exactly when that audience is
a member of the set (so a teacher-only entry fails when only student is
selected). -/
theorem matchesRole_spec (sr : List UserRole) (a : EduApp) (hne : sr ≠ []) :
    (a.targetAudience = UserRole.BOTH → matchesRole sr a = true) ∧
    (a.targetAudience ≠ UserRole.BOTH → (matchesRole sr a = true ↔ a.targetAudience ∈ sr)) := by
  constructor
  · intro hb
    rw [matchesRole_eq]
    exact Or.inr (Or.inl hb)
  · intro hnb
    rw [matchesRole_eq]
    constructor
    · rintro (h | h | h)
      · exact absurd h hne
      · exact absurd h hnb
      · exact h
    · exact fun h => Or.inr (Or.inr h)

/-- C2 witness: the teacher-only sample entry against the selected-role
set containing only the student role. -/
theorem matchesRole_spec_witness :
    (([UserRole.STUDENT] : List UserRole) ≠ []) ∧
    ((sampleTeacherApp.targetAudience = UserRole.BOTH →
        matchesRole [UserRole.STUDENT] sampleTeacherApp = true) ∧
     (sampleTeacherApp.targetAudience ≠ UserRole.BOTH →
        (matchesRole [UserRole.STUDENT] sampleTeacherApp = true ↔
          sampleTeacherApp.targetAudience ∈ [UserRole.STUDENT]))) :=
  ⟨by decide, matchesRole_spec _ _ (by decide)⟩

/-- C3: with a non-empty selected-stage set, an entry passes the stage
predicate exactly when its stages share at least one tag with the
selected set — non-empty intersection, neither subset nor equality. -/
theorem matchesStage_spec (ss : List EducationStage) (a : EduApp) (hne : ss ≠ []) :
    matchesStage ss a = true ↔ ∃ s, s ∈ a.stages ∧ s ∈ ss := by
  rw [matchesStage_eq]
  exact or_iff_right hne

/-- C3 witness: the sample entry tagged primary and secondary against
the selected stages secondary and university (one shared tag, neither
subset nor equality). -/
theorem matchesStage_spec_witness :
    (([EducationStage.SECUNDARIA, EducationStage.UNIVERSIDAD] : List EducationStage) ≠ []) ∧
    (matchesStage [EducationStage.SECUNDARIA, EducationStage.UNIVERSIDAD] sampleApp = true ↔
      ∃ s, s ∈ sampleApp.stages ∧
        s ∈ [EducationStage.SECUNDARIA, EducationStage.UNIVERSIDAD]) :=
  ⟨by decide, matchesStage_spec _ _ (by decide)⟩

/-- C4: an entry passes the text predicate exactly when the query is
empty or is a case-insensitive substring of the name, of the Spanish
description, or of the Basque description. The predicate takes no
display-language argument, so both languages are always consulted: an
entry matched only in its Basque description is surfaced while Spanish
is the display language. -/
theorem matchesSearch_spec (q : String) (a : EduApp) :
    matchesSearch q a = true ↔
      (q = "" ∨ ciSubstr q a.name ∨ ciSubstr q a.description.es ∨ ciSubstr q a.description.eu) :=
  matchesSearch_eq q a

/-- C5: with the empty query and all four selection sets empty the
filter returns the catalog unchanged — empty selections mean no
constraint, never match-nothing. -/
theorem filteredApps_identity (C : List EduApp) :
    filteredApps C "" [] [] [] [] = C :=
  filteredApps_all_empty C

/-- C6: clearFilters empties the text query and all four selection
sets; running the filter on the cleared state returns the full catalog
in its original order, and the active-filter count (the sum of the
sizes of the four selection sets, the query not counted) of the cleared
state is zero. -/
theorem clearFilters_spec (s : FilterState) (C : List EduApp) :
    (clearFilters s).searchTerm = "" ∧
    (clearFilters s).selectedCategories = [] ∧
    (clearFilters s).selectedStages = [] ∧
    (clearFilters s).selectedRoles = [] ∧
    (clearFilters s).selectedPrices = [] ∧
    runFilter C (clearFilters s) = C ∧
    activeFilterCount (clearFilters s) = 0 :=
  ⟨rfl, rfl, rfl, rfl, rfl, filteredApps_all_empty C, rfl⟩

/-- C7 counterexample: with the detail modal open on a concrete entry
in Spanish, toggling the language to Basque re-runs the review-request
effect — the dependency list of the effect contains the language — so
one more request is issued, refuting the claim that a language switch
does not re-trigger the review request for the open entry. -/
theorem languageToggle_retrigger_cex :
    (modalRender (modalOpen sampleApp Language.es) sampleApp
        (toggleLanguage Language.es)).requestsIssued ≠
      (modalOpen sampleApp Language.es).requestsIssued := by
  decide

/-- C7 amended: a render of the open modal with the same entry and a
changed language re-runs the effect: exactly one more review request is
issued (one request per entry-and-language activation, not per
entry-detail activation only), and the result of the superseded run's
request is no longer applied, its isMounted flag having been cleared by
the cleanup. -/
theorem languageToggle_retriggers (s : ModalEffect) (lang : Language)
    (h : lang ≠ s.depsLang) :
    (modalRender s s.depsApp lang).requestsIssued = s.requestsIssued + 1 ∧
    responseApplied (modalRender s s.depsApp lang) s.epoch = false := by
  rw [modalRender]
  have hc : ¬ (s.depsApp = s.depsApp ∧ lang = s.depsLang) := fun hh => h hh.2
  rw [if_neg hc]
  refine ⟨rfl, ?_⟩
  simp only [responseApplied, decide_eq_false_iff_not]
  omega

/-- C7 amended witness: the concrete sample entry, opened in Spanish
and re-rendered in Basque. -/
theorem languageToggle_retriggers_witness :
    (Language.eu ≠ (modalOpen sampleApp Language.es).depsLang) ∧
    ((modalRender (modalOpen sampleApp Language.es)
         (modalOpen sampleApp Language.es).depsApp Language.eu).requestsIssued =
       (modalOpen sampleApp Language.es).requestsIssued + 1 ∧
     responseApplied
         (modalRender (modalOpen sampleApp Language.es)
           (modalOpen sampleApp Language.es).depsApp Language.eu)
         (modalOpen sampleApp Language.es).epoch = false) :=
  ⟨by decide, languageToggle_retriggers _ _ (by decide)⟩

/-- C8: the image chain is a forward-only machine over primary,
secondary and placeholder. From the initial state, a load failure of
iconUrl moves to the favicon-service URL keyed on the website hostname
when the website parses as a URL, and directly to the category
placeholder when it does not; a failure of the favicon source — a
second load, which the browser performs only when that source differs
from iconUrl — shows the placeholder; and once the placeholder is shown
no network-backed image element is rendered and no error event leaves
the placeholder state, so no third attempt and no backward transition
occurs. -/
theorem imageChain_spec (app : EduApp) :
    (∀ h, urlHostname app.website = some h →
        handleImgError app (initialImgState app) =
          { imgSrc := faviconUrl h, showPlaceholder := false }) ∧
    (urlHostname app.website = none →
        handleImgError app (initialImgState app) =
          { imgSrc := app.iconUrl, showPlaceholder := true }) ∧
    (∀ h, urlHostname app.website = some h → faviconUrl h ≠ app.iconUrl →
        (handleImgError app (handleImgError app (initialImgState app))).showPlaceholder = true) ∧
    (∀ s : ImgState, s.showPlaceholder = true →
        renderedImgSrc s = none ∧ (handleImgError app s).showPlaceholder = true) := by
  refine ⟨?_, ?_, ?_, ?_⟩
  · intro h hh
    simp [handleImgError, initialImgState, hh]
  · intro hh
    simp [handleImgError, initialImgState, hh]
  · intro h hh hne
    have h1 : handleImgError app (initialImgState app) =
        { imgSrc := faviconUrl h, showPlaceholder := false } := by
      simp [handleImgError, initialImgState, hh]
    rw [h1, handleImgError, if_neg hne]
  · intro s hs
    refine ⟨by simp [renderedImgSrc, hs], ?_⟩
    by_cases hc : s.imgSrc = app.iconUrl
    · cases hu : urlHostname app.website <;> simp [handleImgError, hc, hu, hs]
    · simp [handleImgError, hc]

/-- C8 witness: the concrete sample entry, whose website parses with
hostname example.org and whose favicon-service URL differs from its
iconUrl. -/
theorem imageChain_spec_witness :
    urlHostname sampleApp.website = some "example.org" ∧
    faviconUrl "example.org" ≠ sampleApp.iconUrl ∧
    handleImgError sampleApp (initialImgState sampleApp) =
      { imgSrc := faviconUrl "example.org", showPlaceholder := false } ∧
    (handleImgError sampleApp
        (handleImgError sampleApp (initialImgState sampleApp))).showPlaceholder = true :=
  ⟨by decide, by decide,
    (imageChain_spec sampleApp).1 "example.org" (by decide),
    (imageChain_spec sampleApp).2.2.1 "example.org" (by decide) (by decide)⟩

/-- C9 counterexample: the bullet character lies outside the supported
range of the exporter, yet cleanText converts it to a dash rather than
to a space, refuting the claim that every character outside the
supported range is replaced with a space. -/
theorem cleanText_bullet_cex :
    isSupported '•' = false ∧ cleanText ['•'] = ['-'] ∧ cleanText ['•'] ≠ [' '] := by
  decide

/-- C9 amended: cleanText maps each character independently, so the
length is preserved and adjacent words never merge: typographic single
and double quotes become their ASCII equivalents, em and en dashes and
the bullet become a dash, characters inside the supported range are
kept, and every other character becomes a space. -/
theorem cleanText_spec (s : List Char) :
    cleanText s = s.map cleanCharSpec ∧ (cleanText s).length = s.length := by
  have h : cleanText s = s.map cleanCharCode := cleanText_eq_map s
  have hf : cleanCharCode = cleanCharSpec := funext cleanCharCode_eq_spec
  constructor
  · rw [h, hf]
  · rw [h, List.length_map]

/-- C10: for a minAge equal to zero the detail view and the PDF export
render the age field as the dash also used when no restriction is
declared, while the catalog card still shows a +0 badge — the surfaces
disagree on whether a zero minAge is a declared restriction. -/
theorem minAgeZero_disagreement :
    modalMinAgeText (some 0) = "-" ∧
    pdfMinAgeText (some 0) = "-" ∧
    modalMinAgeText none = "-" ∧
    pdfMinAgeText none = "-" ∧
    cardShowsAgeBadge (some 0) = true ∧
    cardAgeBadgeText 0 = "+0" ∧
    cardShowsAgeBadge none = false := by
  decide

end Ikasnova
